import Mathlib

/-!
Lesson relay server (`server.js`): room registry, broadcast and request handlers

A shallow embedding of the registry (`clientsByRoom`, `addClient`, `removeClient`),
of `broadcast`, of `readJsonBody` and of the three request handlers
(`GET /health`, `GET /events`, `POST /event`), followed by the properties proved
about them.

Modelling conventions.

* A JavaScript `Map` / `Set` is a list in insertion order; `Map` keys are compared as
  strings, `Set` elements as client objects.
* A client object `{ id, role, res }` is created once per accepted request and holds
  that request's response object `res`.  A response object is represented by the
  number the runtime gave it when the request arrived, so two client objects are
  the same object exactly when their records are equal.
* `res.write(data)` appends `data` to the frames sent on that response unless the
  underlying socket is gone, in which case nothing is sent and `false` is returned;
  it does not throw.
* The built-ins `JSON.stringify` and `JSON.parse` are not part of the program: every
  definition that calls one takes it as the argument `stringify` or `parse`.
-/

namespace LessonServer

/-! ## Registry data model -/

/-- The object `{ id: clientId, role, res }` built by the `GET /events` handler. -/
structure Client where
  id : String
  role : String
  res : Nat
deriving DecidableEq, Repr

/-- A JavaScript `Set` of client objects, in insertion order. -/
abbrev ClientSet := List Client

/-- The JavaScript `Map` named `clientsByRoom`: room id to member set, in insertion order. -/
abbrev Registry := List (String × ClientSet)

/-- `Set.prototype.add`. -/
def setAdd (s : ClientSet) (c : Client) : ClientSet :=
  if c ∈ s then s else s ++ [c]

/-- `Set.prototype.delete`. -/
def setDelete (s : ClientSet) (c : Client) : ClientSet :=
  s.filter (fun d => decide (d ≠ c))

/-- `Map.prototype.get`; `none` stands for `undefined`. -/
def mapGet : Registry → String → Option ClientSet
  | [], _ => none
  | (k, v) :: rest, key => if k = key then some v else mapGet rest key

/-- `Map.prototype.has`. -/
def mapHas (m : Registry) (key : String) : Bool :=
  (mapGet m key).isSome

/-- `Map.prototype.set`: an existing key keeps its position, a new key goes last. -/
def mapSet : Registry → String → ClientSet → Registry
  | [], key, v => [(key, v)]
  | (k, w) :: rest, key, v =>
    if k = key then (k, v) :: rest else (k, w) :: mapSet rest key v

/-- `Map.prototype.delete`. -/
def mapDelete : Registry → String → Registry
  | [], _ => []
  | (k, w) :: rest, key => if k = key then rest else (k, w) :: mapDelete rest key

/-- `Map.prototype.size`. -/
def mapSize (m : Registry) : Nat :=
  m.length

/-- `addClient(roomId, client)`.  The member set is an object held by the map, so
`.add(client)` on it is an in-place update of the entry. -/
def addClient (clientsByRoom : Registry) (roomId : String) (client : Client) : Registry :=
  let m := if !mapHas clientsByRoom roomId then mapSet clientsByRoom roomId [] else clientsByRoom
  match mapGet m roomId with
  | some room => mapSet m roomId (setAdd room client)
  | none => m

/-- `removeClient(roomId, client)`. -/
def removeClient (clientsByRoom : Registry) (roomId : String) (client : Client) : Registry :=
  match mapGet clientsByRoom roomId with
  | none => clientsByRoom
  | some room =>
    let room := setDelete room client
    let m := mapSet clientsByRoom roomId room
    if room.length = 0 then mapDelete m roomId else m

/-- The members of a room in a registry state (no members when the room is absent). -/
def members (m : Registry) (roomId : String) : ClientSet :=
  (mapGet m roomId).getD []

/-- A call made on the registry. -/
inductive RegOp where
  | join (roomId : String) (client : Client)
  | leave (roomId : String) (client : Client)
deriving DecidableEq, Repr

/-- Perform one registry call. -/
def applyOp (m : Registry) : RegOp → Registry
  | .join r c => addClient m r c
  | .leave r c => removeClient m r c

/-- Perform a sequence of registry calls, starting from the empty registry. -/
def runOps (ops : List RegOp) : Registry :=
  ops.foldl applyOp []

/-- Reading of "currently a member" off the call history alone: the client was joined to
the room and not removed from it since. -/
def joinedNotRemoved (roomId : String) (client : Client) : List RegOp → Bool
  | [] => false
  | op :: rest =>
    joinedNotRemoved roomId client rest ||
      (decide (op = .join roomId client) &&
        !rest.any (fun o => decide (o = .leave roomId client)))

/-- Well-formed registry: room ids are distinct keys, and every stored member set is a
non-empty set without repetition. -/
def Registry.WF (m : Registry) : Prop :=
  (m.map Prod.fst).Nodup ∧ ∀ k v, mapGet m k = some v → v ≠ [] ∧ v.Nodup

/-! ## JSON values and built-ins -/

/-- A JavaScript number, an IEEE double: a finite value is `mantissa * 2 ^ exponent`,
negated when `negative` is set. -/
inductive JsNumber where
  | finite (negative : Bool) (mantissa : Nat) (exponent : Int)
  | infinite (negative : Bool)
  | nan

/-- The number of a count or of a time in milliseconds. -/
def JsNumber.ofNat (n : Nat) : JsNumber :=
  .finite false n 0

/-- A JavaScript value obtained from `JSON.parse`, or an object literal built by the
server.  Strings are sequences of Unicode scalar values; an object lists its properties
in enumeration order. -/
inductive Json where
  | null
  | bool (b : Bool)
  | num (n : JsNumber)
  | str (s : String)
  | arr (items : List Json)
  | obj (props : List (String × Json))

/-- White space and line terminators, the characters `String.prototype.trim` strips. -/
def isJsWhiteSpace (c : Char) : Bool :=
  let n := c.toNat
  n = 9 || n = 10 || n = 11 || n = 12 || n = 13 || n = 32 || n = 160 || n = 5760 ||
    (8192 ≤ n && n ≤ 8202) || n = 8232 || n = 8233 || n = 8239 || n = 8287 ||
    n = 12288 || n = 65279

/-- `String.prototype.trim`. -/
def jsTrim (s : String) : String :=
  String.mk ((s.data.dropWhile isJsWhiteSpace).rdropWhile isJsWhiteSpace)

/-- `String.prototype.length`: the number of UTF-16 code units. -/
def jsLength (s : String) : Nat :=
  (s.data.map (fun c => if c.toNat < 65536 then 1 else 2)).sum

/-- Size in bytes of a text sent as UTF-8. -/
def byteLength (s : String) : Nat :=
  (s.data.map Char.utf8Size).sum

/-! ## Server state and `broadcast` -/

/-- What a handler answered on its response object. -/
inductive Reply where
  /-- The helper `json(res, status, payload)`. -/
  | json (status : Nat) (payload : Json)
  /-- The call `res.writeHead(status, ...)` opening a `text/event-stream` response that is
  left open. -/
  | eventStream (status : Nat)

/-- The process state: the registry, the response objects and the listeners and timers
the handlers installed. -/
structure Server where
  /-- The global `clientsByRoom`. -/
  clientsByRoom : Registry
  /-- Response objects whose socket no longer accepts writes. -/
  gone : List Nat
  /-- Frames written so far, oldest first, each with the response object it went to. -/
  sent : List (Nat × String)
  /-- Response objects with a running `keepAlive` interval. -/
  timers : List Nat
  /-- The `close` listeners installed by `GET /events`, each with the `roomId` and
  `client` its closure holds, keyed by the request's response object. -/
  closeListeners : List (Nat × String × Client)
  /-- Number of requests received so far; the next request's response object. -/
  nextRes : Nat

/-- The state at start-up. -/
def Server.init : Server :=
  { clientsByRoom := [], gone := [], sent := [], timers := [], closeListeners := [],
    nextRes := 0 }

/-- `res.write(data)`: returns the new state and the call's return value. -/
def resWrite (st : Server) (res : Nat) (data : String) : Server × Bool :=
  if res ∈ st.gone then (st, false)
  else ({ st with sent := st.sent ++ [(res, data)] }, true)

/-- The template literal giving the frame of a payload, in `broadcast` and in the
`GET /events` handler. -/
def wireFrame (stringify : Json → String) (payload : Json) : String :=
  "event: lesson\ndata: " ++ stringify payload ++ "\n\n"

/-- `broadcast(roomId, payload, senderId)`. -/
def broadcast (stringify : Json → String) (st : Server) (roomId : String) (payload : Json)
    (senderId : String) : Server :=
  match mapGet st.clientsByRoom roomId with
  | none => st
  | some room =>
    let wire := wireFrame stringify payload
    room.foldl
      (fun st client => if client.id = senderId then st else (resWrite st client.res wire).1)
      st

/-- The frames sent on one response object, oldest first. -/
def framesOn (st : Server) (res : Nat) : List String :=
  (st.sent.filter (fun w => decide (w.1 = res))).map Prod.snd

/-! ## `readJsonBody` -/

/-- State of one `readJsonBody(req)` call: the text accumulated in `raw`, how the promise
was settled (if it was), whether `req.destroy()` was called, and the arguments
`JSON.parse` was called with. -/
structure BodyReader where
  raw : String
  settled : Option (Except String Json)
  destroyed : Bool
  parseCalls : List String

/-- Settling a promise: only the first `resolve` / `reject` has an effect. -/
def settle (p : Option (Except String Json)) (r : Except String Json) :
    Option (Except String Json) :=
  match p with
  | none => some r
  | some old => some old

/-- The `data` listener.  The chunk is given as the text it converts to in `raw += chunk`. -/
def BodyReader.onData (st : BodyReader) (chunk : String) : BodyReader :=
  let raw := st.raw ++ chunk
  if jsLength raw > 1000000 then
    { st with raw := raw, settled := settle st.settled (.error "Payload too large"),
              destroyed := true }
  else { st with raw := raw }

/-- The `end` listener; `parse` is `JSON.parse`, `none` standing for a thrown
`SyntaxError`. -/
def BodyReader.onEnd (parse : String → Option Json) (st : BodyReader) : BodyReader :=
  if st.raw ≠ "" then
    match parse st.raw with
    | some parsed =>
      { st with parseCalls := st.parseCalls ++ [st.raw],
                settled := settle st.settled (.ok parsed) }
    | none =>
      { st with parseCalls := st.parseCalls ++ [st.raw],
                settled := settle st.settled (.error "Invalid JSON") }
  else { st with settled := settle st.settled (.ok (.obj [])) }

/-- The state in which `readJsonBody` installs its listeners: `raw = ''`, promise
pending. -/
def BodyReader.start : BodyReader :=
  { raw := "", settled := none, destroyed := false, parseCalls := [] }

/-- Arrival of a chunk: the `data` listener runs unless the request was destroyed. -/
def BodyReader.deliver (st : BodyReader) (chunk : String) : BodyReader :=
  if st.destroyed then st else st.onData chunk

/-- `readJsonBody(req)` run on a request whose body arrives as the given chunks and then
ends.  A destroyed request emits neither further `data` nor `end`. -/
def readJsonBody (parse : String → Option Json) (chunks : List String) : BodyReader :=
  let st := chunks.foldl BodyReader.deliver BodyReader.start
  if st.destroyed then st else st.onEnd parse

/-! ## Request handlers -/

/-- The `GET /health` handler. -/
def handleHealth (st : Server) : Server × Reply :=
  (st, .json 200
    (.obj [("ok", .bool true), ("rooms", .num (.ofNat (mapSize st.clientsByRoom)))]))

/-- The `GET /events` handler, for the request whose response object is `res`.  The
arguments `room`, `clientId`, `role` are the results of `searchParams.get`, `none`
standing for `null`; `now` is the value of `Date.now()`. -/
def handleEvents (stringify : Json → String) (st : Server) (res : Nat)
    (room clientId role : Option String) (now : Nat) : Server × Reply :=
  let roomId := jsTrim (room.getD "")
  let clientId := jsTrim (clientId.getD "")
  let role := jsTrim (role.getD "")
  if roomId = "" ∨ clientId = "" ∨ role = "" then
    (st, .json 400 (.obj [("error", .str "room, clientId and role are required")]))
  else
    let client : Client := { id := clientId, role := role, res := res }
    let st := { st with clientsByRoom := addClient st.clientsByRoom roomId client }
    let st := (resWrite st res (wireFrame stringify (.obj [("type", .str "system_join"),
      ("roomId", .str roomId), ("role", .str role), ("at", .num (.ofNat now))]))).1
    let st := { st with timers := st.timers ++ [res],
                        closeListeners := st.closeListeners ++ [(res, roomId, client)] }
    (st, .eventStream 200)

/-- The `keepAlive` interval callback of the request with response object `res`. -/
def onKeepAlive (st : Server) (res : Nat) : Server :=
  if res ∈ st.timers then (resWrite st res ": ping\n\n").1 else st

/-- The `close` event of the request with response object `res`: every listener
installed on that request runs. -/
def onClose (st : Server) (res : Nat) : Server :=
  (st.closeListeners.filter (fun l => decide (l.1 = res))).foldl
    (fun st l =>
      { st with timers := st.timers.filter (fun t => decide (t ≠ l.1)),
                clientsByRoom := removeClient st.clientsByRoom l.2.1 l.2.2 })
    st

/-- The value of an object's property, `none` when the object has no such property. -/
def lookupProp (props : List (String × Json)) (name : String) : Option Json :=
  (props.find? (fun p => decide (p.1 = name))).map Prod.snd

/-- Property read `body.name`: `none` stands for `undefined`; reading a property of
`null` throws a `TypeError`, given by its message. -/
def getProp (body : Json) (name : String) : Except String (Option Json) :=
  match body with
  | .null => .error ("Cannot read properties of null (reading '" ++ name ++ "')")
  | .obj props => .ok (lookupProp props name)
  | _ => .ok none

/-- The expression `typeof v === 'string' ? v.trim() : ''`. -/
def stringField (v : Option Json) : String :=
  match v with
  | some (.str s) => jsTrim s
  | _ => ""

/-- The expression `v && typeof v === 'object' ? v : {}`. -/
def payloadField (v : Option Json) : Json :=
  match v with
  | some (.arr items) => .arr items
  | some (.obj props) => .obj props
  | _ => .obj []

/-- The `try` block of the `POST /event` handler after the body was read; an exception
is returned as its message. -/
def publish (stringify : Json → String) (st : Server) (body : Json) (now : Nat) :
    Except String (Server × Reply) := do
  let roomId := stringField (← getProp body "roomId")
  let senderId := stringField (← getProp body "senderId")
  let role := stringField (← getProp body "role")
  let type := stringField (← getProp body "type")
  let payload := payloadField (← getProp body "payload")
  if roomId = "" ∨ senderId = "" ∨ role = "" ∨ type = "" then
    return (st, .json 400 (.obj [("error", .str "roomId, senderId, role and type are required")]))
  else
    let st := broadcast stringify st roomId (.obj [("type", .str type),
      ("roomId", .str roomId), ("role", .str role), ("senderId", .str senderId),
      ("payload", payload), ("at", .num (.ofNat now))]) senderId
    return (st, .json 200 (.obj [("ok", .bool true)]))

/-- The `catch` clause of the `POST /event` handler. -/
def catchReply (message : String) : Reply :=
  .json 400 (.obj [("error", .str (if message = "" then "Bad request" else message))])

/-- The `POST /event` handler once the body is available. -/
def handlePublish (stringify : Json → String) (st : Server) (body : Json) (now : Nat) :
    Server × Reply :=
  match publish stringify st body now with
  | .ok r => r
  | .error message => (st, catchReply message)

/-- The `POST /event` handler, for the request whose response object is `res` and whose
body arrives as the given chunks.  The result holds the call of `json` the handler made,
if any: none while the promise of `readJsonBody` is pending.  A request and its response
share one socket, so `req.destroy()` in `readJsonBody` leaves `res` without a socket
before the `catch` clause runs. -/
def handlePostEvent (stringify : Json → String) (parse : String → Option Json) (st : Server)
    (res : Nat) (chunks : List String) (now : Nat) : Server × Option Reply :=
  let reader := readJsonBody parse chunks
  let st := if reader.destroyed then { st with gone := res :: st.gone } else st
  match reader.settled with
  | none => (st, none)
  | some (.error message) => (st, some (catchReply message))
  | some (.ok body) =>
    ((handlePublish stringify st body now).1, some (handlePublish stringify st body now).2)

/-- What the client of response object `res` receives of a reply made in state `st`:
nothing when the socket is gone. -/
def received (st : Server) (res : Nat) (reply : Option Reply) : Option Reply :=
  if res ∈ st.gone then none else reply

/-- What happens to the server. -/
inductive Event where
  | getHealth
  | getEvents (room clientId role : Option String) (now : Nat)
  | postEvent (chunks : List String) (now : Nat)
  | closed (res : Nat)
  | keepAlive (res : Nat)
  | socketGone (res : Nat)

/-- One step of the server: a request is given the next response object and routed to
its handler; a `close` event or an interval tick runs its callback. -/
def step (stringify : Json → String) (parse : String → Option Json) (st : Server) :
    Event → Server
  | .getHealth => { (handleHealth st).1 with nextRes := st.nextRes + 1 }
  | .getEvents room clientId role now =>
    { (handleEvents stringify st st.nextRes room clientId role now).1 with
        nextRes := st.nextRes + 1 }
  | .postEvent chunks now =>
    { (handlePostEvent stringify parse st st.nextRes chunks now).1 with
        nextRes := st.nextRes + 1 }
  | .closed res => onClose st res
  | .keepAlive res => onKeepAlive st res
  | .socketGone res => { st with gone := res :: st.gone }

/-- The state after a sequence of events, from start-up. -/
def run (stringify : Json → String) (parse : String → Option Json) (events : List Event) :
    Server :=
  events.foldl (step stringify parse) Server.init

/-- Every member of the set has its own response object. -/
def DistinctChannels (room : ClientSet) : Prop :=
  ∀ c ∈ room, ∀ d ∈ room, c.res = d.res → c = d

/-- The clients `broadcast` writes to with effect: members other than the sender whose
socket still accepts writes. -/
def receivers (st : Server) (room : ClientSet) (senderId : String) : ClientSet :=
  room.filter (fun c => decide (c.id ≠ senderId) && decide (c.res ∉ st.gone))

/-- A query parameter that is missing, or empty once trimmed. -/
def missingOrBlank (v : Option String) : Bool :=
  match v with
  | none => true
  | some text => decide (jsTrim text = "")

/-- Stands in for `JSON.stringify` where an example has to be run; it is `JSON.stringify`
on `null`. -/
def nullText : Json → String :=
  fun _ => "null"

/-- A state in which room `r1` has three members, two of them connections with id `A`. -/
def threeInRoom : Server :=
  { Server.init with
      clientsByRoom :=
        [("r1", [⟨"A", "teacher", 0⟩, ⟨"B", "student", 1⟩, ⟨"A", "teacher", 2⟩])] }

/-- The state after client `A` (a teacher) and then client `B` (a student) subscribed to
room `r1` on a fresh server, at times 1000 and 2000. -/
def abJoined (stringify : Json → String) : Server :=
  (handleEvents stringify
    (handleEvents stringify Server.init 0 (some "r1") (some "A") (some "teacher") 1000).1
    1 (some "r1") (some "B") (some "student") 2000).1

/-- The event the `POST /event` handler builds from `noteBody` at time 3000. -/
def noteEvent : Json :=
  .obj [("type", .str "note"), ("roomId", .str "r1"), ("role", .str "teacher"),
    ("senderId", .str "A"), ("payload", .obj [("text", .str "hi")]),
    ("at", .num (.ofNat 3000))]

/-- The publish body `{roomId:"r1", senderId:"A", role:"teacher", type:"note",
payload:{text:"hi"}}`. -/
def noteBody : Json :=
  .obj [("roomId", .str "r1"), ("senderId", .str "A"), ("role", .str "teacher"),
    ("type", .str "note"), ("payload", .obj [("text", .str "hi")])]

/-- A field of a publish body that is absent, not a string, or empty once trimmed. -/
def blankField (body : Json) (name : String) : Bool :=
  match body with
  | .obj props =>
    match lookupProp props name with
    | some (.str text) => decide (jsTrim text = "")
    | _ => true
  | _ => true

/-- A publish body lacking one of the four required fields. -/
def invalidBody (body : Json) : Bool :=
  blankField body "roomId" || blankField body "senderId" || blankField body "role" ||
    blankField body "type"

/-- The whole body text: the chunks one after the other. -/
def bodyText : List String → String
  | [] => ""
  | chunk :: rest => chunk ++ bodyText rest

/-- A chunk of 1,000,000 letters `a`. -/
def asciiChunk : String :=
  String.mk (List.replicate 1000000 (Char.ofNat 97))

/-- A body of 500,001 copies of the letter e with acute accent (U+00E9), which takes two
bytes in UTF-8: 1,000,002 bytes of text. -/
def accentedBody : String :=
  String.mk (List.replicate 500001 (Char.ofNat 233))

/-- What holds of every state the server reaches: the registry is well formed, every
`close` listener belongs to a request already received and holds the client built for
that request, no request has two listeners, and every member of a room is the client of
a listener installed for that room. -/
def Server.Inv (st : Server) : Prop :=
  st.clientsByRoom.WF ∧
  (st.closeListeners.map Prod.fst).Nodup ∧
  (∀ l ∈ st.closeListeners, l.1 < st.nextRes ∧ l.2.2.res = l.1) ∧
  (∀ r c, c ∈ members st.clientsByRoom r → (c.res, r, c) ∈ st.closeListeners)

/-! ## Registry lemmas -/

theorem mapGet_mapSet (m : Registry) (k k' : String) (v : ClientSet) :
    mapGet (mapSet m k v) k' = if k = k' then some v else mapGet m k' := by
  induction m with
  | nil => simp [mapSet, mapGet]
  | cons e rest ih =>
    obtain ⟨k1, w⟩ := e
    by_cases h1 : k1 = k
    · subst h1
      by_cases h2 : k1 = k' <;> simp [mapSet, mapGet, h2]
    · by_cases h2 : k1 = k'
      · subst h2
        have h3 : ¬ k = k1 := fun h => h1 h.symm
        simp [mapSet, mapGet, h1, h3]
      · simp [mapSet, mapGet, h1, h2, ih]

theorem mapGet_eq_none_iff (m : Registry) (k : String) :
    mapGet m k = none ↔ k ∉ m.map Prod.fst := by
  induction m with
  | nil => simp [mapGet]
  | cons e rest ih =>
    obtain ⟨k1, w⟩ := e
    by_cases h1 : k1 = k
    · simp [mapGet, h1]
    · have h2 : ¬ k = k1 := fun h => h1 h.symm
      simp [mapGet, h1, h2, ih]

theorem keys_mapSet (m : Registry) (k : String) (v : ClientSet) :
    (mapSet m k v).map Prod.fst =
      if k ∈ m.map Prod.fst then m.map Prod.fst else m.map Prod.fst ++ [k] := by
  induction m with
  | nil => simp [mapSet]
  | cons e rest ih =>
    obtain ⟨k1, w⟩ := e
    by_cases h1 : k1 = k
    · subst h1
      simp [mapSet]
    · have h2 : ¬ k = k1 := fun h => h1 h.symm
      by_cases h3 : k ∈ rest.map Prod.fst
      · simp only [mapSet, h1, if_false, List.map_cons, ih, h3, if_true, List.mem_cons, or_true]
      · simp only [mapSet, h1, if_false, List.map_cons, ih, h3, List.mem_cons, h2, or_self,
          List.cons_append]

theorem keys_mapDelete (m : Registry) (k : String) :
    (mapDelete m k).map Prod.fst = (m.map Prod.fst).erase k := by
  induction m with
  | nil => simp [mapDelete]
  | cons e rest ih =>
    obtain ⟨k1, w⟩ := e
    by_cases h1 : k1 = k
    · subst h1
      simp [mapDelete]
    · simp [mapDelete, h1, ih, List.erase_cons_tail]

theorem nodup_keys_mapSet (m : Registry) (k : String) (v : ClientSet)
    (h : (m.map Prod.fst).Nodup) : ((mapSet m k v).map Prod.fst).Nodup := by
  rw [keys_mapSet]
  by_cases hk : k ∈ m.map Prod.fst
  · simpa [hk] using h
  · rw [if_neg hk]
    exact List.Nodup.append h (List.nodup_singleton k) (by simpa using hk)

theorem nodup_keys_mapDelete (m : Registry) (k : String)
    (h : (m.map Prod.fst).Nodup) : ((mapDelete m k).map Prod.fst).Nodup := by
  rw [keys_mapDelete]
  exact h.erase k

theorem mapGet_mapDelete (m : Registry) (k k' : String) (h : (m.map Prod.fst).Nodup) :
    mapGet (mapDelete m k) k' = if k = k' then none else mapGet m k' := by
  induction m with
  | nil => simp [mapDelete, mapGet]
  | cons e rest ih =>
    obtain ⟨k1, w⟩ := e
    have hrest : (rest.map Prod.fst).Nodup := (List.nodup_cons.mp h).2
    have hk1 : k1 ∉ rest.map Prod.fst := (List.nodup_cons.mp h).1
    by_cases h1 : k1 = k
    · subst h1
      by_cases h2 : k1 = k'
      · subst h2
        simpa [mapDelete, mapGet_eq_none_iff] using hk1
      · simp [mapDelete, mapGet, h2]
    · by_cases h2 : k1 = k'
      · subst h2
        have h3 : ¬ k = k1 := fun h => h1 h.symm
        simp [mapDelete, mapGet, h1, h3]
      · simp [mapDelete, mapGet, h1, h2, ih hrest]

theorem mapSet_same (m : Registry) (k : String) (v : ClientSet) (h : mapGet m k = some v) :
    mapSet m k v = m := by
  induction m with
  | nil => simp [mapGet] at h
  | cons e rest ih =>
    obtain ⟨k1, w⟩ := e
    by_cases h1 : k1 = k
    · subst h1
      simp [mapGet] at h
      simp [mapSet, h]
    · simp [mapGet, h1] at h
      simp [mapSet, h1, ih h]

theorem mem_setAdd (s : ClientSet) (c d : Client) : d ∈ setAdd s c ↔ d = c ∨ d ∈ s := by
  unfold setAdd
  by_cases h : c ∈ s
  · simp only [h, if_true]
    constructor
    · exact Or.inr
    · rintro (rfl | h') <;> assumption
  · simp [h, or_comm]

theorem mem_setDelete (s : ClientSet) (c d : Client) : d ∈ setDelete s c ↔ d ∈ s ∧ d ≠ c := by
  simp [setDelete]

theorem nodup_setAdd (s : ClientSet) (c : Client) (h : s.Nodup) : (setAdd s c).Nodup := by
  unfold setAdd
  by_cases hc : c ∈ s
  · simpa [hc] using h
  · rw [if_neg hc]
    exact List.Nodup.append h (List.nodup_singleton c) (by simpa using hc)

theorem setAdd_ne_nil (s : ClientSet) (c : Client) : setAdd s c ≠ [] := by
  intro h
  have : c ∈ setAdd s c := (mem_setAdd s c c).2 (Or.inl rfl)
  rw [h] at this
  exact List.not_mem_nil _ this

theorem setDelete_eq_self (s : ClientSet) (c : Client) (h : c ∉ s) : setDelete s c = s := by
  unfold setDelete
  rw [List.filter_eq_self]
  intro d hd
  have : d ≠ c := fun e => h (e ▸ hd)
  simpa using this

/-- Lookup after `addClient`. -/
theorem mapGet_addClient (m : Registry) (r r' : String) (c : Client) :
    mapGet (addClient m r c) r' =
      if r = r' then some (setAdd (members m r) c) else mapGet m r' := by
  unfold addClient members
  cases hg : mapGet m r with
  | none =>
    simp only [mapHas, hg, Option.isSome_none, Bool.not_false, if_true, mapGet_mapSet,
      Option.getD_none]
    by_cases h : r = r' <;> simp [h, mapGet_mapSet]
  | some room =>
    simp only [mapHas, hg, Option.isSome_some, Bool.not_true, Option.getD_some]
    simp [hg, mapGet_mapSet]

/-- Lookup after `removeClient`, on a registry with distinct keys. -/
theorem mapGet_removeClient (m : Registry) (r r' : String) (c : Client)
    (hk : (m.map Prod.fst).Nodup) :
    mapGet (removeClient m r c) r' =
      if r = r' then
        (if setDelete (members m r) c = [] then none
         else (mapGet m r).map (fun room => setDelete room c))
      else mapGet m r' := by
  unfold removeClient members
  cases hg : mapGet m r with
  | none =>
    by_cases h : r = r'
    · subst h
      simp [hg, setDelete]
    · simp [h]
  | some room =>
    simp only [Option.getD_some, Option.map_some']
    by_cases he : setDelete room c = []
    · simp only [he, List.length_nil, if_true]
      rw [mapGet_mapDelete _ _ _ (nodup_keys_mapSet _ _ _ hk), mapGet_mapSet]
      by_cases h : r = r' <;> simp [h]
    · have hl : ¬ (setDelete room c).length = 0 := by
        simpa [List.length_eq_zero] using he
      simp only [hl, if_false, he, mapGet_mapSet]

theorem nodup_keys_addClient (m : Registry) (r : String) (c : Client)
    (hk : (m.map Prod.fst).Nodup) : ((addClient m r c).map Prod.fst).Nodup := by
  have h1 : ((if !mapHas m r then mapSet m r [] else m).map Prod.fst).Nodup := by
    split
    · exact nodup_keys_mapSet _ _ _ hk
    · exact hk
  show ((match mapGet (if !mapHas m r then mapSet m r [] else m) r with
    | some room => mapSet (if !mapHas m r then mapSet m r [] else m) r (setAdd room c)
    | none => (if !mapHas m r then mapSet m r [] else m)).map Prod.fst).Nodup
  cases mapGet (if !mapHas m r then mapSet m r [] else m) r with
  | none => exact h1
  | some room => exact nodup_keys_mapSet _ _ _ h1

theorem nodup_keys_removeClient (m : Registry) (r : String) (c : Client)
    (hk : (m.map Prod.fst).Nodup) : ((removeClient m r c).map Prod.fst).Nodup := by
  unfold removeClient
  split
  · exact hk
  · simp only
    split
    · exact nodup_keys_mapDelete _ _ (nodup_keys_mapSet _ _ _ hk)
    · exact nodup_keys_mapSet _ _ _ hk

theorem wf_nil : Registry.WF [] := by
  refine ⟨by simp, ?_⟩
  intro k v h
  simp [mapGet] at h

theorem wf_addClient (m : Registry) (r : String) (c : Client) (h : m.WF) :
    (addClient m r c).WF := by
  refine ⟨nodup_keys_addClient m r c h.1, ?_⟩
  intro k v hg
  rw [mapGet_addClient] at hg
  by_cases hr : r = k
  · rw [if_pos hr] at hg
    have hv : v = setAdd (members m r) c := by
      simpa using hg.symm
    subst hv
    refine ⟨setAdd_ne_nil _ _, nodup_setAdd _ _ ?_⟩
    unfold members
    cases hm : mapGet m r with
    | none => simp
    | some room => simpa using (h.2 r room hm).2
  · rw [if_neg hr] at hg
    exact h.2 k v hg

theorem wf_removeClient (m : Registry) (r : String) (c : Client) (h : m.WF) :
    (removeClient m r c).WF := by
  refine ⟨nodup_keys_removeClient m r c h.1, ?_⟩
  intro k v hg
  rw [mapGet_removeClient m r k c h.1] at hg
  by_cases hr : r = k
  · rw [if_pos hr] at hg
    by_cases he : setDelete (members m r) c = []
    · simp [he] at hg
    · rw [if_neg he] at hg
      cases hm : mapGet m r with
      | none => simp [hm] at hg
      | some room =>
        have hv : v = setDelete room c := by
          simpa [hm] using hg.symm
        have hmem : members m r = room := by simp [members, hm]
        subst hv
        refine ⟨by simpa [hmem] using he, ?_⟩
        exact (h.2 r room hm).2.filter _
  · rw [if_neg hr] at hg
    exact h.2 k v hg

theorem wf_applyOp (m : Registry) (op : RegOp) (h : m.WF) : (applyOp m op).WF := by
  cases op with
  | join r c => exact wf_addClient m r c h
  | leave r c => exact wf_removeClient m r c h

theorem runOps_snoc (ops : List RegOp) (op : RegOp) :
    runOps (ops ++ [op]) = applyOp (runOps ops) op := by
  simp [runOps, List.foldl_append]

theorem wf_runOps (ops : List RegOp) : (runOps ops).WF := by
  induction ops using List.reverseRecOn with
  | nil => exact wf_nil
  | append_singleton ops op ih =>
    rw [runOps_snoc]
    exact wf_applyOp _ _ ih

/-- Membership after `addClient`. -/
theorem mem_members_addClient (m : Registry) (r r' : String) (c c' : Client) :
    c' ∈ members (addClient m r c) r' ↔ (r' = r ∧ c' = c) ∨ c' ∈ members m r' := by
  have hg := mapGet_addClient m r r' c
  by_cases hr : r = r'
  · subst hr
    rw [if_pos rfl] at hg
    have : members (addClient m r c) r = setAdd (members m r) c := by
      simp [members, hg]
    rw [this, mem_setAdd]
    simp
  · rw [if_neg hr] at hg
    have hr' : ¬ r' = r := fun h => hr h.symm
    have : members (addClient m r c) r' = members m r' := by
      simp [members, hg]
    rw [this]
    simp [hr']

/-- Membership after `removeClient`, on a registry with distinct keys. -/
theorem mem_members_removeClient (m : Registry) (r r' : String) (c c' : Client)
    (hk : (m.map Prod.fst).Nodup) :
    c' ∈ members (removeClient m r c) r' ↔ c' ∈ members m r' ∧ ¬ (r' = r ∧ c' = c) := by
  have hg := mapGet_removeClient m r r' c hk
  by_cases hr : r = r'
  · subst hr
    rw [if_pos rfl] at hg
    have : members (removeClient m r c) r = setDelete (members m r) c := by
      by_cases he : setDelete (members m r) c = []
      · rw [if_pos he] at hg
        simp [members, hg] at he ⊢
        exact he
      · rw [if_neg he] at hg
        cases hm : mapGet m r with
        | none => simp [members, hm, setDelete] at he
        | some room => simp [members, hg, hm]
    rw [this, mem_setDelete]
    simp
  · rw [if_neg hr] at hg
    have hr' : ¬ r' = r := fun h => hr h.symm
    have : members (removeClient m r c) r' = members m r' := by
      simp [members, hg]
    rw [this]
    simp [hr']

theorem mapHas_iff_members_ne_nil (m : Registry) (r : String) (h : m.WF) :
    mapHas m r = true ↔ members m r ≠ [] := by
  unfold mapHas members
  cases hm : mapGet m r with
  | none => simp
  | some room => simpa using (h.2 r room hm).1

theorem joinedNotRemoved_snoc (r : String) (c : Client) (ops : List RegOp) (op : RegOp) :
    joinedNotRemoved r c (ops ++ [op]) =
      if op = .join r c then true
      else if op = .leave r c then false
      else joinedNotRemoved r c ops := by
  induction ops with
  | nil =>
    by_cases h1 : op = .join r c
    · simp [joinedNotRemoved, h1]
    · simp [joinedNotRemoved, h1]
  | cons o ops ih =>
    have hc : joinedNotRemoved r c ((o :: ops) ++ [op]) =
        (joinedNotRemoved r c (ops ++ [op]) ||
          (decide (o = .join r c) &&
            !(ops ++ [op]).any (fun o => decide (o = .leave r c)))) := rfl
    rw [hc, ih]
    by_cases h1 : op = .join r c
    · simp [h1]
    · by_cases h2 : op = .leave r c
      · simp [h2]
      · simp [h1, h2, joinedNotRemoved]

/-- The history reading of membership agrees with the member sets stored in the registry. -/
theorem joinedNotRemoved_iff_mem (ops : List RegOp) (r : String) (c : Client) :
    joinedNotRemoved r c ops = true ↔ c ∈ members (runOps ops) r := by
  induction ops using List.reverseRecOn with
  | nil => simp [joinedNotRemoved, runOps, members, mapGet]
  | append_singleton ops op ih =>
    rw [runOps_snoc, joinedNotRemoved_snoc]
    cases op with
    | join r' c' =>
      simp only [applyOp, mem_members_addClient, RegOp.join.injEq, reduceCtorEq, if_false]
      by_cases h : r' = r ∧ c' = c
      · obtain ⟨rfl, rfl⟩ := h
        simp
      · rw [if_neg h]
        rw [ih]
        constructor
        · exact Or.inr
        · rintro (⟨h1, h2⟩ | h3)
          · exact absurd ⟨h1.symm, h2.symm⟩ h
          · exact h3
    | leave r' c' =>
      simp only [applyOp, mem_members_removeClient _ _ _ _ _ (wf_runOps ops).1,
        RegOp.leave.injEq, reduceCtorEq, if_false]
      by_cases h : r' = r ∧ c' = c
      · obtain ⟨rfl, rfl⟩ := h
        simp
      · rw [if_neg h, ih]
        constructor
        · intro h3
          exact ⟨h3, fun ⟨h1, h2⟩ => h ⟨h1.symm, h2.symm⟩⟩
        · exact fun h3 => h3.1

theorem removeClient_of_not_mem (m : Registry) (r : String) (c : Client) (h : m.WF)
    (hc : c ∉ members m r) : removeClient m r c = m := by
  unfold removeClient
  cases hm : mapGet m r with
  | none => rfl
  | some room =>
    have hroom : c ∉ room := by simpa [members, hm] using hc
    have hne : ¬ room.length = 0 := by
      simpa [List.length_eq_zero] using (h.2 r room hm).1
    simp only [setDelete_eq_self room c hroom, hne, if_false]
    exact mapSet_same m r room hm

theorem not_mem_members_removeClient (m : Registry) (r : String) (c : Client) (h : m.WF) :
    c ∉ members (removeClient m r c) r := by
  rw [mem_members_removeClient m r r c c h.1]
  simp

/-! ## Broadcast lemmas -/

theorem broadcast_loop (wire senderId : String) (room : ClientSet) (st : Server) :
    room.foldl
      (fun st client => if client.id = senderId then st else (resWrite st client.res wire).1)
      st =
    { st with sent := st.sent ++ (receivers st room senderId).map (fun c => (c.res, wire)) } := by
  induction room generalizing st with
  | nil => simp [receivers]
  | cons c rest ih =>
    rw [List.foldl_cons, ih]
    by_cases h1 : c.id = senderId
    · simp [h1, receivers]
    · by_cases h2 : c.res ∈ st.gone
      · simp [h1, h2, receivers, resWrite]
      · simp [h1, h2, receivers, resWrite]

/-- The effect of `broadcast` on an existing room: the frame is appended once for every
receiver, in iteration order, and nothing else changes. -/
theorem broadcast_of_room (stringify : Json → String) (st : Server) (roomId senderId : String) (payload : Json)
    (room : ClientSet) (h : mapGet st.clientsByRoom roomId = some room) :
    broadcast stringify st roomId payload senderId =
      { st with sent := st.sent ++
          (receivers st room senderId).map (fun c => (c.res, wireFrame stringify payload)) } := by
  unfold broadcast
  rw [h]
  exact broadcast_loop _ _ _ _

theorem framesOn_append (st : Server) (extra : List (Nat × String)) (res : Nat) :
    framesOn { st with sent := st.sent ++ extra } res =
      framesOn st res ++ (extra.filter (fun w => decide (w.1 = res))).map Prod.snd := by
  simp [framesOn, List.filter_append]

theorem filter_res_eq (room : ClientSet) (c : Client) (hn : room.Nodup)
    (hd : DistinctChannels room) (hc : c ∈ room) :
    room.filter (fun d => decide (d.res = c.res)) = [c] := by
  have h1 : room.filter (fun d => decide (d.res = c.res)) = room.filter (fun d => d == c) := by
    apply List.filter_congr
    intro d hdm
    by_cases h : d = c
    · simp [h]
    · have : ¬ d.res = c.res := fun e => h (hd d hdm c hc e)
      simp [h, this]
  rw [h1, List.filter_beq, List.count_eq_one_of_mem hn hc]
  rfl

theorem frames_for_channel (st : Server) (room : ClientSet) (senderId wire : String)
    (c : Client) (hn : room.Nodup) (hd : DistinctChannels room) (hc : c ∈ room) :
    (((receivers st room senderId).map (fun c => (c.res, wire))).filter
        (fun w => decide (w.1 = c.res))).map Prod.snd =
      if c.id ≠ senderId ∧ c.res ∉ st.gone then [wire] else [] := by
  have h1 : ((receivers st room senderId).map (fun c => (c.res, wire))).filter
        (fun w => decide (w.1 = c.res)) =
      ((room.filter (fun d => decide (d.res = c.res))).filter
        (fun c => decide (c.id ≠ senderId) && decide (c.res ∉ st.gone))).map
          (fun c => (c.res, wire)) := by
    rw [List.filter_map, receivers, List.filter_filter, List.filter_filter]
    congr 1
    apply List.filter_congr
    intro d _
    simp [Bool.and_comm]
  rw [h1, filter_res_eq room c hn hd hc]
  by_cases h2 : c.id = senderId
  · simp [h2]
  · by_cases h3 : c.res ∈ st.gone
    · simp [h2, h3]
    · simp [h2, h3]

/-- Frames on a member's response object after `broadcast` on its room. -/
theorem framesOn_broadcast (stringify : Json → String) (st : Server) (roomId senderId : String) (payload : Json)
    (room : ClientSet) (h : mapGet st.clientsByRoom roomId = some room)
    (hn : room.Nodup) (hd : DistinctChannels room) (c : Client) (hc : c ∈ room) :
    framesOn (broadcast stringify st roomId payload senderId) c.res =
      framesOn st c.res ++
        (if c.id ≠ senderId ∧ c.res ∉ st.gone then [wireFrame stringify payload] else []) := by
  rw [broadcast_of_room stringify st roomId senderId payload room h, framesOn_append,
    frames_for_channel st room senderId _ c hn hd hc]

/-! ## Registry properties -/

/-- C1: after any sequence of `addClient` / `removeClient` calls from the empty registry,
a room id is a key of `clientsByRoom` exactly when some client has been joined to that
room and not removed since; no key maps to an empty member set; and the number of keys
is positive exactly when some client is currently a member of some room. -/
theorem room_key_iff_has_member (ops : List RegOp) (roomId : String) :
    (mapHas (runOps ops) roomId = true ↔ ∃ c, joinedNotRemoved roomId c ops = true) ∧
    mapGet (runOps ops) roomId ≠ some [] ∧
    (0 < mapSize (runOps ops) ↔ ∃ r c, joinedNotRemoved r c ops = true) := by
  have hwf := wf_runOps ops
  refine ⟨?_, fun h => (hwf.2 roomId [] h).1 rfl, ?_⟩
  · rw [mapHas_iff_members_ne_nil _ _ hwf]
    constructor
    · intro h
      obtain ⟨c, hc⟩ := List.exists_mem_of_ne_nil _ h
      exact ⟨c, (joinedNotRemoved_iff_mem ops roomId c).2 hc⟩
    · rintro ⟨c, hc⟩ h
      have := (joinedNotRemoved_iff_mem ops roomId c).1 hc
      rw [h] at this
      exact List.not_mem_nil _ this
  · constructor
    · intro h
      cases hm : runOps ops with
      | nil => simp [mapSize, hm] at h
      | cons e rest =>
        obtain ⟨k, v⟩ := e
        have hg : mapGet (runOps ops) k = some v := by simp [hm, mapGet]
        obtain ⟨c, hc⟩ := List.exists_mem_of_ne_nil _ (hwf.2 k v hg).1
        refine ⟨k, c, (joinedNotRemoved_iff_mem ops k c).2 ?_⟩
        simpa [members, hg] using hc
    · rintro ⟨r, c, hc⟩
      have hmem := (joinedNotRemoved_iff_mem ops r c).1 hc
      cases hm : runOps ops with
      | nil => simp [hm, members, mapGet] at hmem
      | cons e rest => simp [mapSize]

/-- C5: in a registry reached by joins and leaves, `removeClient` for a client that is
not a member of the room (the room may be absent) returns the registry unchanged, and
removing the same client a second time gives the same registry as removing it once. -/
theorem removeClient_idempotent (ops : List RegOp) (roomId : String) (client : Client) :
    (client ∉ members (runOps ops) roomId →
      removeClient (runOps ops) roomId client = runOps ops) ∧
    removeClient (removeClient (runOps ops) roomId client) roomId client =
      removeClient (runOps ops) roomId client := by
  have hwf := wf_runOps ops
  refine ⟨removeClient_of_not_mem _ _ _ hwf, ?_⟩
  exact removeClient_of_not_mem _ _ _ (wf_removeClient _ _ _ hwf)
    (not_mem_members_removeClient _ _ _ hwf)

/-- Witness for C5: a client registered in room `r1` is removed from the absent room `r2`. -/
theorem removeClient_idempotent_witness :
    removeClient (runOps [.join "r1" ⟨"A", "teacher", 0⟩]) "r2" ⟨"A", "teacher", 0⟩ =
      runOps [.join "r1" ⟨"A", "teacher", 0⟩] :=
  (removeClient_idempotent [.join "r1" ⟨"A", "teacher", 0⟩] "r2" ⟨"A", "teacher", 0⟩).1
    (by decide)

/-! ## Broadcast properties -/

/-- C2: `broadcast(roomId, event, S)` sends nothing on the response object of a member
whose id is `S`, whatever the size of the room and however many of its connections carry
the id `S` (each member having its own response object). -/
theorem broadcast_skips_sender (stringify : Json → String) (st : Server) (roomId senderId : String) (event : Json)
    (c : Client) (hd : DistinctChannels (members st.clientsByRoom roomId))
    (hc : c ∈ members st.clientsByRoom roomId) (hid : c.id = senderId) :
    framesOn (broadcast stringify st roomId event senderId) c.res = framesOn st c.res := by
  cases hm : mapGet st.clientsByRoom roomId with
  | none => simp [members, hm] at hc
  | some room =>
    have hroom : members st.clientsByRoom roomId = room := by simp [members, hm]
    rw [hroom] at hd hc
    rw [broadcast_of_room stringify st roomId senderId event room hm, framesOn_append]
    have hnone : ((receivers st room senderId).map (fun c => (c.res, wireFrame stringify event))).filter
        (fun w => decide (w.1 = c.res)) = [] := by
      rw [List.filter_eq_nil_iff]
      intro w hw
      obtain ⟨d, hdm, rfl⟩ := List.mem_map.1 hw
      have hdr : d ∈ room ∧ d.id ≠ senderId := by
        have := List.mem_filter.1 hdm
        refine ⟨this.1, ?_⟩
        have h2 := this.2
        simp only [Bool.and_eq_true, decide_eq_true_eq] at h2
        exact h2.1
      have hne : ¬ d.res = c.res := by
        intro e
        have := hd d hdr.1 c hc e
        exact hdr.2 (this ▸ hid)
      simpa using hne
    rw [hnone]
    simp

/-- Witness for C2: two connections with id `A` and one with id `B` in room `r1`. -/
theorem broadcast_skips_sender_witness :
    framesOn (broadcast nullText threeInRoom "r1" .null "A") 2 = framesOn threeInRoom 2 :=
  broadcast_skips_sender nullText threeInRoom "r1" "A" .null ⟨"A", "teacher", 2⟩
    (by unfold DistinctChannels; decide) (by decide) rfl

/-- C3: on an existing room whose members' sockets all accept writes, `broadcast` sends
exactly one frame, `event: lesson`, `data: ` and the JSON text of the event followed by a
blank line, on the response object of every member whose id differs from `senderId`, and
nothing to the others.  With `A` and `B` subscribed to `r1`, publishing the note of `A`
adds for `B` exactly one frame, the one of the event with type `note`, sender `A` and
payload `text: hi`, and none for `A`. -/
theorem broadcast_delivers_once (stringify : Json → String) (st : Server)
    (roomId senderId : String) (event : Json)
    (room : ClientSet) (h : mapGet st.clientsByRoom roomId = some room)
    (hn : room.Nodup) (hd : DistinctChannels room) (hw : ∀ c ∈ room, c.res ∉ st.gone) :
    (∀ c ∈ room, c.id ≠ senderId →
      framesOn (broadcast stringify st roomId event senderId) c.res =
        framesOn st c.res ++ ["event: lesson\ndata: " ++ stringify event ++ "\n\n"]) ∧
    (∀ c ∈ room, c.id = senderId →
      framesOn (broadcast stringify st roomId event senderId) c.res = framesOn st c.res) ∧
    (framesOn (handlePublish stringify (abJoined stringify) noteBody 3000).1 1 =
        framesOn (abJoined stringify) 1 ++
          ["event: lesson\ndata: " ++ stringify noteEvent ++ "\n\n"] ∧
     framesOn (handlePublish stringify (abJoined stringify) noteBody 3000).1 0 =
        framesOn (abJoined stringify) 0) := by
  have hpub : (handlePublish stringify (abJoined stringify) noteBody 3000).1 =
      broadcast stringify (abJoined stringify) "r1" noteEvent "A" := rfl
  have hroom : mapGet (abJoined stringify).clientsByRoom "r1" =
      some [⟨"A", "teacher", 0⟩, ⟨"B", "student", 1⟩] := rfl
  have hgone : (abJoined stringify).gone = [] := rfl
  have hnd : ([⟨"A", "teacher", 0⟩, ⟨"B", "student", 1⟩] : ClientSet).Nodup := by decide
  have hdc : DistinctChannels [⟨"A", "teacher", 0⟩, ⟨"B", "student", 1⟩] := by
    unfold DistinctChannels
    decide
  refine ⟨?_, ?_, ?_, ?_⟩
  · intro c hc hid
    rw [framesOn_broadcast stringify st roomId senderId event room h hn hd c hc]
    simp [hid, hw c hc, wireFrame]
  · intro c hc hid
    rw [framesOn_broadcast stringify st roomId senderId event room h hn hd c hc]
    simp [hid]
  · rw [hpub]
    have := framesOn_broadcast stringify (abJoined stringify) "r1" "A" noteEvent _ hroom hnd hdc
      ⟨"B", "student", 1⟩ (by decide)
    simpa [hgone, wireFrame] using this
  · rw [hpub]
    have := framesOn_broadcast stringify (abJoined stringify) "r1" "A" noteEvent _ hroom hnd hdc
      ⟨"A", "teacher", 0⟩ (by decide)
    simpa [hgone, wireFrame] using this

/-- Witness for C3: the frame of `null` sent by `A` to the room of `threeInRoom`. -/
theorem broadcast_delivers_once_witness :
    framesOn (broadcast nullText threeInRoom "r1" .null "A") 1 =
      framesOn threeInRoom 1 ++ ["event: lesson\ndata: " ++ nullText .null ++ "\n\n"] :=
  (broadcast_delivers_once nullText threeInRoom "r1" "A" .null
    [⟨"A", "teacher", 0⟩, ⟨"B", "student", 1⟩, ⟨"A", "teacher", 2⟩] (by decide) (by decide)
    (by unfold DistinctChannels; decide) (by decide)).1 ⟨"B", "student", 1⟩ (by decide)
    (by decide)

/-- C4: `broadcast` to a room id that is not a key of the registry returns the state
as it was: no frame on any response object, the registry as before, no room created. -/
theorem broadcast_absent_room (stringify : Json → String) (st : Server) (roomId senderId : String) (event : Json)
    (h : mapGet st.clientsByRoom roomId = none) :
    broadcast stringify st roomId event senderId = st := by
  unfold broadcast
  rw [h]

/-- Witness for C4: room `r2` while only `r1` has members. -/
theorem broadcast_absent_room_witness :
    broadcast nullText threeInRoom "r2" .null "A" = threeInRoom :=
  broadcast_absent_room nullText threeInRoom "r2" "A" .null (by decide)

/-- C6: when the write to a member's response object fails, `broadcast` still returns,
sends nothing on that object, leaves the registry as it was, and sends the frame exactly
once on the response object of every other member whose id differs from `senderId` and
whose socket accepts writes, wherever that member comes in the iteration order. -/
theorem broadcast_survives_failed_write (stringify : Json → String) (st : Server) (roomId senderId : String)
    (event : Json) (room : ClientSet) (failed : Client)
    (h : mapGet st.clientsByRoom roomId = some room) (hn : room.Nodup)
    (hd : DistinctChannels room) (hf : failed ∈ room) (hgone : failed.res ∈ st.gone) :
    framesOn (broadcast stringify st roomId event senderId) failed.res = framesOn st failed.res ∧
    (broadcast stringify st roomId event senderId).clientsByRoom = st.clientsByRoom ∧
    ∀ c ∈ room, c.id ≠ senderId → c.res ∉ st.gone →
      framesOn (broadcast stringify st roomId event senderId) c.res =
        framesOn st c.res ++ [wireFrame stringify event] := by
  refine ⟨?_, ?_, ?_⟩
  · rw [framesOn_broadcast stringify st roomId senderId event room h hn hd failed hf]
    simp [hgone]
  · rw [broadcast_of_room stringify st roomId senderId event room h]
  · intro c hc hid hok
    rw [framesOn_broadcast stringify st roomId senderId event room h hn hd c hc]
    simp [hid, hok]

/-- Witness for C6: in room `r1` with `A`, `B`, `C`, the socket of `B` is gone and `C`,
iterated after `B`, still gets the frame sent by `A`. -/
theorem broadcast_survives_failed_write_witness :
    framesOn (broadcast nullText
      { Server.init with
          clientsByRoom :=
            [("r1", [⟨"A", "teacher", 0⟩, ⟨"B", "student", 1⟩, ⟨"C", "student", 2⟩])],
          gone := [1] }
      "r1" .null "A") 2 = [wireFrame nullText .null] :=
  (broadcast_survives_failed_write nullText
    { Server.init with
        clientsByRoom :=
          [("r1", [⟨"A", "teacher", 0⟩, ⟨"B", "student", 1⟩, ⟨"C", "student", 2⟩])],
        gone := [1] }
    "r1" "A" .null [⟨"A", "teacher", 0⟩, ⟨"B", "student", 1⟩, ⟨"C", "student", 2⟩]
    ⟨"B", "student", 1⟩ (by decide) (by decide) (by unfold DistinctChannels; decide)
    (by decide) (by decide)).2.2 ⟨"C", "student", 2⟩ (by decide) (by decide) (by decide)

/-! ## Handler lemmas -/

theorem jsTrim_getD_eq_empty_iff (v : Option String) :
    jsTrim (v.getD "") = "" ↔ missingOrBlank v = true := by
  cases v with
  | none =>
    simp only [Option.getD_none, missingOrBlank, iff_true]
    decide
  | some text => simp [missingOrBlank]

theorem stringField_eq_empty_iff (props : List (String × Json)) (name : String) :
    stringField (lookupProp props name) = "" ↔ blankField (.obj props) name = true := by
  cases hl : lookupProp props name with
  | none => simp [blankField, hl, stringField]
  | some v => cases v <;> simp [blankField, hl, stringField]

theorem blankField_false (props : List (String × Json)) (name : String)
    (h : blankField (.obj props) name = false) :
    ∃ text, lookupProp props name = some (.str text) ∧ jsTrim text ≠ "" ∧
      stringField (lookupProp props name) = jsTrim text := by
  unfold blankField at h
  cases hl : lookupProp props name with
  | none => simp [hl] at h
  | some v =>
    cases v with
    | str text =>
      refine ⟨text, rfl, ?_, by simp [stringField]⟩
      simpa [hl] using h
    | null => simp [hl] at h
    | bool b => simp [hl] at h
    | num n => simp [hl] at h
    | arr items => simp [hl] at h
    | obj ps => simp [hl] at h

/-- The `try` block on an object body, with the property reads done. -/
theorem publish_obj (stringify : Json → String) (st : Server) (props : List (String × Json)) (now : Nat) :
    publish stringify st (.obj props) now =
      if stringField (lookupProp props "roomId") = "" ∨
          stringField (lookupProp props "senderId") = "" ∨
          stringField (lookupProp props "role") = "" ∨
          stringField (lookupProp props "type") = "" then
        .ok (st, .json 400
          (.obj [("error", .str "roomId, senderId, role and type are required")]))
      else
        .ok (broadcast stringify st (stringField (lookupProp props "roomId"))
          (.obj [("type", .str (stringField (lookupProp props "type"))),
            ("roomId", .str (stringField (lookupProp props "roomId"))),
            ("role", .str (stringField (lookupProp props "role"))),
            ("senderId", .str (stringField (lookupProp props "senderId"))),
            ("payload", payloadField (lookupProp props "payload")),
            ("at", .num (.ofNat now))])
          (stringField (lookupProp props "senderId")),
          .json 200 (.obj [("ok", .bool true)])) := by
  simp only [publish, getProp, bind, Except.bind, pure, Except.pure]

/-- A body that is not an object is answered 400 and changes nothing. -/
theorem handlePublish_not_obj (stringify : Json → String) (st : Server) (body : Json) (now : Nat)
    (h : ∀ props, body ≠ .obj props) :
    ∃ err, handlePublish stringify st body now = (st, .json 400 (.obj [("error", .str err)])) := by
  cases body with
  | obj props => exact absurd rfl (h props)
  | null => exact ⟨_, rfl⟩
  | bool b => exact ⟨_, rfl⟩
  | num n => exact ⟨_, rfl⟩
  | str text => exact ⟨_, rfl⟩
  | arr items => exact ⟨_, rfl⟩

/-! ## Handler properties -/

/-- C7: a subscribe request in which `room`, `clientId` or `role` is missing or empty
once trimmed is answered 400 with body `\x7b"error": "room, clientId and role are
required"\x7d` and leaves the whole state, the registry included, as it was; any other
subscribe request is answered with status 200 and afterwards a client with the trimmed
`clientId` and `role` is a member of the room named by the trimmed `room`. -/
theorem subscribe_validation (stringify : Json → String) (st : Server) (res : Nat)
    (room clientId role : Option String) (now : Nat) :
    (missingOrBlank room = true ∨ missingOrBlank clientId = true ∨
        missingOrBlank role = true →
      handleEvents stringify st res room clientId role now =
        (st, .json 400 (.obj [("error", .str "room, clientId and role are required")]))) ∧
    (¬ (missingOrBlank room = true ∨ missingOrBlank clientId = true ∨
        missingOrBlank role = true) →
      (handleEvents stringify st res room clientId role now).2 = .eventStream 200 ∧
      (⟨jsTrim (clientId.getD ""), jsTrim (role.getD ""), res⟩ : Client) ∈
        members (handleEvents stringify st res room clientId role now).1.clientsByRoom
          (jsTrim (room.getD ""))) := by
  constructor
  · intro h
    rw [← jsTrim_getD_eq_empty_iff, ← jsTrim_getD_eq_empty_iff, ← jsTrim_getD_eq_empty_iff] at h
    simp only [handleEvents, h, if_true]
  · intro h
    rw [← jsTrim_getD_eq_empty_iff, ← jsTrim_getD_eq_empty_iff, ← jsTrim_getD_eq_empty_iff] at h
    simp only [handleEvents, h, if_false]
    refine ⟨trivial, ?_⟩
    have hw : ∀ (s : Server) (r : Nat) (d : String),
        (resWrite s r d).1.clientsByRoom = s.clientsByRoom := by
      intro s r d
      unfold resWrite
      split <;> rfl
    simp only [hw]
    rw [mem_members_addClient]
    exact Or.inl ⟨rfl, rfl⟩

/-- Witness for C7: a request without `clientId`, and an accepted request. -/
theorem subscribe_validation_witness :
    handleEvents nullText Server.init 0 (some "r1") none (some "teacher") 1000 =
      (Server.init, .json 400 (.obj [("error", .str "room, clientId and role are required")])) ∧
    (⟨"A", "teacher", 0⟩ : Client) ∈
      members (handleEvents nullText Server.init 0 (some " r1 ") (some "A") (some "teacher")
        1000).1.clientsByRoom "r1" :=
  ⟨(subscribe_validation nullText Server.init 0 (some "r1") none (some "teacher") 1000).1 (by decide),
   ((subscribe_validation nullText Server.init 0 (some " r1 ") (some "A") (some "teacher") 1000).2
      (by decide)).2⟩

/-- C8: a parsed publish body is answered 400 with an error object, the state (and so
every response object) left as it was, exactly when one of `roomId`, `senderId`, `role`,
`type` is absent, not a string, or empty once trimmed; any other body, whatever its
`payload`, is answered 200 `\x7b"ok": true\x7d` after `broadcast` was called for the
trimmed `roomId` with the event built from the trimmed fields and the trimmed `senderId`
as the excluded sender. -/
theorem publish_validation (stringify : Json → String) (st : Server) (body : Json) (now : Nat) :
    (invalidBody body = true ↔
      ∃ err, handlePublish stringify st body now = (st, .json 400 (.obj [("error", .str err)]))) ∧
    (invalidBody body = false →
      ∃ props roomId senderId role type,
        body = .obj props ∧
        lookupProp props "roomId" = some (.str roomId) ∧
        lookupProp props "senderId" = some (.str senderId) ∧
        lookupProp props "role" = some (.str role) ∧
        lookupProp props "type" = some (.str type) ∧
        handlePublish stringify st body now =
          (broadcast stringify st (jsTrim roomId)
            (.obj [("type", .str (jsTrim type)), ("roomId", .str (jsTrim roomId)),
              ("role", .str (jsTrim role)), ("senderId", .str (jsTrim senderId)),
              ("payload", payloadField (lookupProp props "payload")), ("at", .num (.ofNat now))])
            (jsTrim senderId),
           .json 200 (.obj [("ok", .bool true)]))) := by
  have hvalid : invalidBody body = false →
      ∃ props roomId senderId role type,
        body = .obj props ∧
        lookupProp props "roomId" = some (.str roomId) ∧
        lookupProp props "senderId" = some (.str senderId) ∧
        lookupProp props "role" = some (.str role) ∧
        lookupProp props "type" = some (.str type) ∧
        handlePublish stringify st body now =
          (broadcast stringify st (jsTrim roomId)
            (.obj [("type", .str (jsTrim type)), ("roomId", .str (jsTrim roomId)),
              ("role", .str (jsTrim role)), ("senderId", .str (jsTrim senderId)),
              ("payload", payloadField (lookupProp props "payload")), ("at", .num (.ofNat now))])
            (jsTrim senderId),
           .json 200 (.obj [("ok", .bool true)])) := by
    intro h
    cases body with
    | obj props =>
      simp only [invalidBody, Bool.or_eq_false_iff] at h
      obtain ⟨⟨⟨h1, h2⟩, h3⟩, h4⟩ := h
      obtain ⟨r, hr, hr1, hr2⟩ := blankField_false props "roomId" h1
      obtain ⟨s, hs, hs1, hs2⟩ := blankField_false props "senderId" h2
      obtain ⟨ro, hro, hro1, hro2⟩ := blankField_false props "role" h3
      obtain ⟨t, ht, ht1, ht2⟩ := blankField_false props "type" h4
      refine ⟨props, r, s, ro, t, rfl, hr, hs, hro, ht, ?_⟩
      simp only [handlePublish, publish_obj, hr2, hs2, hro2, ht2, hr1, hs1, hro1, ht1,
        or_self, if_false]
    | null => simp [invalidBody, blankField] at h
    | bool b => simp [invalidBody, blankField] at h
    | num n => simp [invalidBody, blankField] at h
    | str text => simp [invalidBody, blankField] at h
    | arr items => simp [invalidBody, blankField] at h
  refine ⟨?_, hvalid⟩
  constructor
  · intro h
    by_cases hobj : ∃ props, body = .obj props
    · obtain ⟨props, rfl⟩ := hobj
      refine ⟨"roomId, senderId, role and type are required", ?_⟩
      have hc : stringField (lookupProp props "roomId") = "" ∨
          stringField (lookupProp props "senderId") = "" ∨
          stringField (lookupProp props "role") = "" ∨
          stringField (lookupProp props "type") = "" := by
        simp only [stringField_eq_empty_iff]
        simpa [invalidBody, or_assoc] using h
      simp only [handlePublish, publish_obj, hc, if_true]
    · exact handlePublish_not_obj stringify st body now (fun props e => hobj ⟨props, e⟩)
  · rintro ⟨err, herr⟩
    by_contra hinv
    have hinv' : invalidBody body = false := by simpa using hinv
    obtain ⟨props, r, s, ro, t, _, _, _, _, _, hp⟩ := hvalid hinv'
    rw [hp] at herr
    have h2 := congrArg Prod.snd herr
    simp at h2

/-- Witness for C8: the note of `A` published on a server without subscribers. -/
theorem publish_validation_witness :
    ∃ props roomId senderId role type,
      noteBody = .obj props ∧
      lookupProp props "roomId" = some (.str roomId) ∧
      lookupProp props "senderId" = some (.str senderId) ∧
      lookupProp props "role" = some (.str role) ∧
      lookupProp props "type" = some (.str type) ∧
      handlePublish nullText Server.init noteBody 3000 =
        (broadcast nullText Server.init (jsTrim roomId)
          (.obj [("type", .str (jsTrim type)), ("roomId", .str (jsTrim roomId)),
            ("role", .str (jsTrim role)), ("senderId", .str (jsTrim senderId)),
            ("payload", payloadField (lookupProp props "payload")),
            ("at", .num (.ofNat 3000))])
          (jsTrim senderId),
         .json 200 (.obj [("ok", .bool true)])) :=
  (publish_validation nullText Server.init noteBody 3000).2 (by decide)

/-! ## `readJsonBody` lemmas -/

theorem jsLength_append (a b : String) : jsLength (a ++ b) = jsLength a + jsLength b := by
  simp [jsLength, String.data_append]

theorem string_append_empty (a : String) : a ++ "" = a := by
  apply String.ext
  simp [String.data_append]

theorem string_empty_append (a : String) : "" ++ a = a := by
  apply String.ext
  simp [String.data_append]

theorem string_append_assoc (a b c : String) : a ++ b ++ c = a ++ (b ++ c) := by
  apply String.ext
  simp [String.data_append]

theorem readLoop_destroyed (chunks : List String) (st : BodyReader) (h : st.destroyed = true) :
    chunks.foldl BodyReader.deliver st = st := by
  induction chunks with
  | nil => rfl
  | cons c cs ih => simp [List.foldl_cons, BodyReader.deliver, h, ih]

/-- The `data` events, from a state in which nothing was settled: either the text went
over the limit at some chunk and the promise was rejected, or all the text is in `raw`. -/
theorem readLoop (chunks : List String) (raw : String) (hraw : jsLength raw ≤ 1000000) :
    (1000000 < jsLength (raw ++ bodyText chunks) →
      (chunks.foldl BodyReader.deliver
          { raw := raw, settled := none, destroyed := false, parseCalls := [] }).destroyed = true ∧
      (chunks.foldl BodyReader.deliver
          { raw := raw, settled := none, destroyed := false, parseCalls := [] }).settled =
        some (.error "Payload too large") ∧
      (chunks.foldl BodyReader.deliver
          { raw := raw, settled := none, destroyed := false, parseCalls := [] }).parseCalls = []) ∧
    (jsLength (raw ++ bodyText chunks) ≤ 1000000 →
      chunks.foldl BodyReader.deliver
          { raw := raw, settled := none, destroyed := false, parseCalls := [] } =
        { raw := raw ++ bodyText chunks, settled := none, destroyed := false,
          parseCalls := [] }) := by
  induction chunks generalizing raw with
  | nil =>
    simp only [bodyText, string_append_empty, List.foldl_nil]
    exact ⟨fun h => absurd hraw (by omega), fun _ => trivial⟩
  | cons c cs ih =>
    have hlen : jsLength (raw ++ bodyText (c :: cs)) =
        jsLength (raw ++ c) + jsLength (bodyText cs) := by
      simp only [bodyText, jsLength_append]
      omega
    have hassoc : raw ++ bodyText (c :: cs) = raw ++ c ++ bodyText cs := by
      simp only [bodyText, string_append_assoc]
    by_cases hbig : 1000000 < jsLength (raw ++ c)
    · have hstep : BodyReader.deliver
          { raw := raw, settled := none, destroyed := false, parseCalls := [] } c =
          { raw := raw ++ c, settled := some (.error "Payload too large"), destroyed := true,
            parseCalls := [] } := by
        simp [BodyReader.deliver, BodyReader.onData, hbig, settle]
      simp only [List.foldl_cons, hstep]
      rw [readLoop_destroyed cs _ rfl]
      refine ⟨fun _ => ⟨rfl, rfl, rfl⟩, fun h => ?_⟩
      rw [hlen] at h
      omega
    · have hsmall : jsLength (raw ++ c) ≤ 1000000 := by omega
      have hstep : BodyReader.deliver
          { raw := raw, settled := none, destroyed := false, parseCalls := [] } c =
          { raw := raw ++ c, settled := none, destroyed := false, parseCalls := [] } := by
        simp [BodyReader.deliver, BodyReader.onData, hbig]
      simp only [List.foldl_cons, hstep]
      rw [hassoc]
      exact ih (raw ++ c) hsmall

theorem jsLength_empty : jsLength "" = 0 := by
  decide

theorem jsLength_accentedBody : jsLength accentedBody = 500001 := by
  simp only [jsLength, accentedBody, List.map_replicate, List.sum_replicate, smul_eq_mul]
  have : (Char.ofNat 233).toNat < 65536 := by decide
  simp [this]

theorem jsLength_asciiChunk : jsLength asciiChunk = 1000000 := by
  simp only [jsLength, asciiChunk, List.map_replicate, List.sum_replicate, smul_eq_mul]
  have : (Char.ofNat 97).toNat < 65536 := by decide
  simp [this]

theorem byteLength_accentedBody : byteLength accentedBody = 1000002 := by
  simp only [byteLength, accentedBody, List.map_replicate, List.sum_replicate, smul_eq_mul]
  have : Char.utf8Size (Char.ofNat 233) = 2 := by decide
  simp [this]

theorem accentedBody_ne_empty : accentedBody ≠ "" := by
  intro h
  have := congrArg jsLength h
  rw [jsLength_accentedBody, jsLength_empty] at this
  omega

/-- What `readJsonBody` does, by the length of the body text. -/
theorem readJsonBody_cases (parse : String → Option Json) (chunks : List String) :
    (1000000 < jsLength (bodyText chunks) →
      (readJsonBody parse chunks).settled = some (.error "Payload too large") ∧
      (readJsonBody parse chunks).parseCalls = []) ∧
    (jsLength (bodyText chunks) ≤ 1000000 → bodyText chunks = "" →
      (readJsonBody parse chunks).settled = some (.ok (.obj [])) ∧
      (readJsonBody parse chunks).parseCalls = []) ∧
    (jsLength (bodyText chunks) ≤ 1000000 → bodyText chunks ≠ "" →
      (readJsonBody parse chunks).settled =
        some (match parse (bodyText chunks) with
          | some parsed => .ok parsed
          | none => .error "Invalid JSON") ∧
      (readJsonBody parse chunks).parseCalls = [bodyText chunks]) := by
  have hloop := readLoop chunks "" (by rw [jsLength_empty]; omega)
  rw [string_empty_append] at hloop
  change (1000000 < jsLength (bodyText chunks) →
      (chunks.foldl BodyReader.deliver BodyReader.start).destroyed = true ∧
      (chunks.foldl BodyReader.deliver BodyReader.start).settled =
        some (.error "Payload too large") ∧
      (chunks.foldl BodyReader.deliver BodyReader.start).parseCalls = []) ∧
    (jsLength (bodyText chunks) ≤ 1000000 →
      chunks.foldl BodyReader.deliver BodyReader.start =
        { raw := bodyText chunks, settled := none, destroyed := false,
          parseCalls := [] }) at hloop
  refine ⟨?_, ?_, ?_⟩
  · intro h
    obtain ⟨h1, h2, h3⟩ := hloop.1 h
    simp only [readJsonBody, h1, if_true]
    exact ⟨h2, h3⟩
  · intro h he
    have h1 := hloop.2 h
    simp only [readJsonBody, h1, Bool.false_eq_true, if_false, BodyReader.onEnd, he]
    simp [settle]
  · intro h he
    have h1 := hloop.2 h
    simp only [readJsonBody, h1, Bool.false_eq_true, if_false, BodyReader.onEnd, he, ne_eq,
      not_false_eq_true, if_true]
    cases parse (bodyText chunks) <;> simp [settle]

theorem jsLength_twoChunks : 1000000 < jsLength (bodyText [asciiChunk, "a"]) := by
  have h1 : jsLength "a" = 1 := by decide
  simp only [bodyText, jsLength_append, string_append_empty, jsLength_asciiChunk, h1]
  omega

theorem readJsonBody_destroyed (parse : String → Option Json) (chunks : List String)
    (h : 1000000 < jsLength (bodyText chunks)) :
    (readJsonBody parse chunks).destroyed = true := by
  have hloop := readLoop chunks "" (by rw [jsLength_empty]; omega)
  rw [string_empty_append] at hloop
  have h1 : (chunks.foldl BodyReader.deliver BodyReader.start).destroyed = true :=
    (hloop.1 h).1
  simp only [readJsonBody, h1, if_true]

/-- The `POST /event` handler on a request that `readJsonBody` destroyed. -/
theorem handlePostEvent_destroyed (stringify : Json → String) (parse : String → Option Json)
    (st : Server) (res : Nat) (chunks : List String) (now : Nat) (message : String)
    (hd : (readJsonBody parse chunks).destroyed = true)
    (hs : (readJsonBody parse chunks).settled = some (.error message)) :
    handlePostEvent stringify parse st res chunks now =
      ({ st with gone := res :: st.gone }, some (catchReply message)) := by
  unfold handlePostEvent
  simp only [hd, hs, if_true]

/-! ## `readJsonBody` properties -/

/-- C9, as stated, fails.  A body of 1,000,002 bytes whose text is 500,001 characters long
is not rejected as too large: `JSON.parse` is called on it and its outcome decides.  The
empty body is accepted as `\x7b\x7d` without `JSON.parse` being called at all.  And for a
body of 1,000,001 letters `a`, rejected as too large, the 400 reply of the `catch` clause
is made on a response whose socket `req.destroy()` has torn down, so the client receives
no reply. -/
theorem oversized_byte_body_is_parsed :
    1000000 < byteLength (bodyText [accentedBody]) ∧
    (∀ parse : String → Option Json,
      (readJsonBody parse [accentedBody]).settled ≠ some (.error "Payload too large") ∧
      (readJsonBody parse [accentedBody]).parseCalls = [accentedBody]) ∧
    (∀ parse : String → Option Json,
      (readJsonBody parse []).settled = some (.ok (.obj [])) ∧
      (readJsonBody parse []).parseCalls = []) ∧
    (∀ (stringify : Json → String) (parse : String → Option Json) (st : Server)
        (res now : Nat),
      (readJsonBody parse [asciiChunk, "a"]).settled = some (.error "Payload too large") ∧
      received (handlePostEvent stringify parse st res [asciiChunk, "a"] now).1 res
        (handlePostEvent stringify parse st res [asciiChunk, "a"] now).2 = none) := by
  have htext : bodyText [accentedBody] = accentedBody := by
    simp only [bodyText, string_append_empty]
  refine ⟨?_, ?_, ?_, ?_⟩
  · rw [htext, byteLength_accentedBody]
    omega
  · intro parse
    have h := (readJsonBody_cases parse [accentedBody]).2.2
      (by rw [htext, jsLength_accentedBody]; omega) (by rw [htext]; exact accentedBody_ne_empty)
    rw [htext] at h
    refine ⟨?_, h.2⟩
    rw [h.1]
    cases parse accentedBody <;> simp
  · intro parse
    exact (readJsonBody_cases parse []).2.1 (by simp [bodyText, jsLength_empty]) rfl
  · intro stringify parse st res now
    have h1 := ((readJsonBody_cases parse [asciiChunk, "a"]).1 jsLength_twoChunks).1
    have h2 := readJsonBody_destroyed parse [asciiChunk, "a"] jsLength_twoChunks
    refine ⟨h1, ?_⟩
    rw [handlePostEvent_destroyed stringify parse st res _ now _ h2 h1]
    simp [received]

/-- C9, amended: when the body text is longer than 1,000,000 UTF-16 code units the promise
of `readJsonBody` is rejected with `Payload too large` and `JSON.parse` is never called;
an empty body within the limit is accepted as `\x7b\x7d` without parsing; a non-empty body
within the limit is passed to `JSON.parse` once, whole, and is accepted with the parsed
value or rejected with `Invalid JSON` according to whether it parses. -/
theorem body_cap (parse : String → Option Json) (chunks : List String) :
    (1000000 < jsLength (bodyText chunks) →
      (readJsonBody parse chunks).settled = some (.error "Payload too large") ∧
      (readJsonBody parse chunks).parseCalls = []) ∧
    (jsLength (bodyText chunks) ≤ 1000000 → bodyText chunks = "" →
      (readJsonBody parse chunks).settled = some (.ok (.obj [])) ∧
      (readJsonBody parse chunks).parseCalls = []) ∧
    (jsLength (bodyText chunks) ≤ 1000000 → bodyText chunks ≠ "" →
      (readJsonBody parse chunks).settled =
        some (match parse (bodyText chunks) with
          | some parsed => .ok parsed
          | none => .error "Invalid JSON") ∧
      (readJsonBody parse chunks).parseCalls = [bodyText chunks]) :=
  readJsonBody_cases parse chunks

/-- Witness for C9 (amended): a body of 1,000,001 letters `a` sent as two chunks, and
the body `x` handed to a parser that refuses every text. -/
theorem body_cap_witness :
    (readJsonBody (fun _ => none) [asciiChunk, "a"]).settled =
      some (.error "Payload too large") ∧
    (readJsonBody (fun _ => none) ["x"]).parseCalls = ["x"] :=
  ⟨((body_cap (fun _ => none) [asciiChunk, "a"]).1 jsLength_twoChunks).1,
   ((body_cap (fun _ => none) ["x"]).2.2 (by decide) (by decide)).2⟩

/-! ## Reachable states -/

theorem resWrite_fields (st : Server) (res : Nat) (data : String) :
    (resWrite st res data).1.clientsByRoom = st.clientsByRoom ∧
    (resWrite st res data).1.closeListeners = st.closeListeners ∧
    (resWrite st res data).1.nextRes = st.nextRes := by
  unfold resWrite
  split <;> exact ⟨rfl, rfl, rfl⟩

theorem broadcast_fields (stringify : Json → String) (st : Server) (roomId senderId : String) (payload : Json) :
    (broadcast stringify st roomId payload senderId).clientsByRoom = st.clientsByRoom ∧
    (broadcast stringify st roomId payload senderId).closeListeners = st.closeListeners ∧
    (broadcast stringify st roomId payload senderId).nextRes = st.nextRes := by
  cases h : mapGet st.clientsByRoom roomId with
  | none =>
    have : broadcast stringify st roomId payload senderId = st := by
      unfold broadcast
      rw [h]
    rw [this]
    exact ⟨rfl, rfl, rfl⟩
  | some room =>
    rw [broadcast_of_room stringify st roomId senderId payload room h]
    exact ⟨rfl, rfl, rfl⟩

theorem handlePublish_fields (stringify : Json → String) (st : Server) (body : Json) (now : Nat) :
    (handlePublish stringify st body now).1.clientsByRoom = st.clientsByRoom ∧
    (handlePublish stringify st body now).1.closeListeners = st.closeListeners ∧
    (handlePublish stringify st body now).1.nextRes = st.nextRes := by
  by_cases hobj : ∃ props, body = .obj props
  · obtain ⟨props, rfl⟩ := hobj
    by_cases hc : stringField (lookupProp props "roomId") = "" ∨
        stringField (lookupProp props "senderId") = "" ∨
        stringField (lookupProp props "role") = "" ∨
        stringField (lookupProp props "type") = ""
    · have hp : handlePublish stringify st (.obj props) now = (st, .json 400
          (.obj [("error", .str "roomId, senderId, role and type are required")])) := by
        simp only [handlePublish, publish_obj, hc, if_true]
      rw [hp]
      exact ⟨rfl, rfl, rfl⟩
    · have hp : (handlePublish stringify st (.obj props) now).1 =
          broadcast stringify st (stringField (lookupProp props "roomId"))
            (.obj [("type", .str (stringField (lookupProp props "type"))),
              ("roomId", .str (stringField (lookupProp props "roomId"))),
              ("role", .str (stringField (lookupProp props "role"))),
              ("senderId", .str (stringField (lookupProp props "senderId"))),
              ("payload", payloadField (lookupProp props "payload")),
              ("at", .num (.ofNat now))])
            (stringField (lookupProp props "senderId")) := by
        simp only [handlePublish, publish_obj, hc, if_false]
      rw [hp]
      exact broadcast_fields _ _ _ _ _
  · obtain ⟨err, herr⟩ := handlePublish_not_obj stringify st body now (fun props e => hobj ⟨props, e⟩)
    rw [herr]
    exact ⟨rfl, rfl, rfl⟩

theorem handlePostEvent_fields (stringify : Json → String) (parse : String → Option Json)
    (st : Server) (res : Nat) (chunks : List String) (now : Nat) :
    (handlePostEvent stringify parse st res chunks now).1.clientsByRoom = st.clientsByRoom ∧
    (handlePostEvent stringify parse st res chunks now).1.closeListeners =
      st.closeListeners ∧
    (handlePostEvent stringify parse st res chunks now).1.nextRes = st.nextRes := by
  have hst : ∀ b : Bool,
      (if b then { st with gone := res :: st.gone } else st).clientsByRoom = st.clientsByRoom ∧
      (if b then { st with gone := res :: st.gone } else st).closeListeners =
        st.closeListeners ∧
      (if b then { st with gone := res :: st.gone } else st).nextRes = st.nextRes := by
    intro b
    cases b <;> exact ⟨rfl, rfl, rfl⟩
  have h0 := hst (readJsonBody parse chunks).destroyed
  unfold handlePostEvent
  simp only []
  cases hs : (readJsonBody parse chunks).settled with
  | none => exact h0
  | some r =>
    cases r with
    | error message => exact h0
    | ok body =>
      have h1 := handlePublish_fields stringify
        (if (readJsonBody parse chunks).destroyed then { st with gone := res :: st.gone }
          else st) body now
      exact ⟨h1.1.trans h0.1, h1.2.1.trans h0.2.1, h1.2.2.trans h0.2.2⟩

theorem inv_of_fields (st st' : Server) (h : st.Inv)
    (h1 : st'.clientsByRoom = st.clientsByRoom)
    (h2 : st'.closeListeners = st.closeListeners) (h3 : st.nextRes ≤ st'.nextRes) :
    st'.Inv := by
  obtain ⟨a, b, c, d⟩ := h
  refine ⟨h1 ▸ a, h2 ▸ b, ?_, ?_⟩
  · intro l hl
    rw [h2] at hl
    exact ⟨Nat.lt_of_lt_of_le (c l hl).1 h3, (c l hl).2⟩
  · intro r cl hcl
    rw [h1] at hcl
    rw [h2]
    exact d r cl hcl

theorem inv_init : Server.init.Inv := by
  refine ⟨wf_nil, by simp [Server.init], ?_, ?_⟩
  · intro l hl
    simp [Server.init] at hl
  · intro r c hc
    simp [Server.init, members, mapGet] at hc

theorem inv_handleEvents (stringify : Json → String) (st : Server)
    (room clientId role : Option String) (now : Nat) (h : st.Inv) :
    ({ (handleEvents stringify st st.nextRes room clientId role now).1 with
        nextRes := st.nextRes + 1 } : Server).Inv := by
  by_cases hbad : jsTrim (room.getD "") = "" ∨ jsTrim (clientId.getD "") = "" ∨
      jsTrim (role.getD "") = ""
  · have hh : (handleEvents stringify st st.nextRes room clientId role now).1 = st := by
      simp only [handleEvents, hbad, if_true]
    rw [hh]
    exact inv_of_fields st _ h rfl rfl (Nat.le_succ _)
  · obtain ⟨a, b, c, d⟩ := h
    simp only [handleEvents, hbad, if_false]
    refine ⟨?_, ?_, ?_, ?_⟩
    · simp only [(resWrite_fields _ _ _).1]
      exact wf_addClient _ _ _ a
    · simp only [(resWrite_fields _ _ _).2.1, List.map_append, List.map_cons, List.map_nil]
      refine List.Nodup.append b (List.nodup_singleton _) ?_
      intro k hk1 hk2
      obtain ⟨l, hl, rfl⟩ := List.mem_map.1 hk1
      have h1 := (c l hl).1
      have h2 : l.1 = st.nextRes := by simpa using hk2
      omega
    · intro l hl
      simp only [(resWrite_fields _ _ _).2.1, List.mem_append, List.mem_singleton] at hl
      rcases hl with hl | rfl
      · exact ⟨Nat.lt_succ_of_lt (c l hl).1, (c l hl).2⟩
      · exact ⟨Nat.lt_succ_self _, rfl⟩
    · intro r cl hcl
      simp only [(resWrite_fields _ _ _).1, mem_members_addClient] at hcl
      simp only [(resWrite_fields _ _ _).2.1, List.mem_append, List.mem_singleton]
      rcases hcl with ⟨rfl, rfl⟩ | hold
      · exact Or.inr rfl
      · exact Or.inl (d r cl hold)

theorem inv_closeLoop (ls : List (Nat × String × Client)) (st : Server) (h : st.Inv) :
    (ls.foldl
      (fun st l =>
        { st with timers := st.timers.filter (fun t => decide (t ≠ l.1)),
                  clientsByRoom := removeClient st.clientsByRoom l.2.1 l.2.2 })
      st).Inv := by
  induction ls generalizing st with
  | nil => exact h
  | cons l rest ih =>
    rw [List.foldl_cons]
    apply ih
    obtain ⟨a, b, c, d⟩ := h
    refine ⟨wf_removeClient _ _ _ a, b, c, ?_⟩
    intro r cl hcl
    have := (mem_members_removeClient st.clientsByRoom l.2.1 r l.2.2 cl a.1).1 hcl
    exact d r cl this.1

theorem inv_step (stringify : Json → String) (parse : String → Option Json) (st : Server)
    (ev : Event) (h : st.Inv) : (step stringify parse st ev).Inv := by
  cases ev with
  | getHealth => exact inv_of_fields st _ h rfl rfl (Nat.le_succ _)
  | getEvents room clientId role now => exact inv_handleEvents stringify st room clientId role now h
  | postEvent chunks now =>
    have hf := handlePostEvent_fields stringify parse st st.nextRes chunks now
    exact inv_of_fields st _ h hf.1 hf.2.1 (Nat.le_succ _)
  | closed res => exact inv_closeLoop _ st h
  | keepAlive res =>
    have hf := resWrite_fields st res ": ping\n\n"
    show (onKeepAlive st res).Inv
    unfold onKeepAlive
    split
    · exact inv_of_fields st _ h hf.1 hf.2.1 (by rw [hf.2.2])
    · exact h
  | socketGone res => exact inv_of_fields st _ h rfl rfl (Nat.le_refl _)

theorem inv_run (stringify : Json → String) (parse : String → Option Json)
    (events : List Event) : (run stringify parse events).Inv := by
  induction events using List.reverseRecOn with
  | nil => exact inv_init
  | append_singleton evs ev ih =>
    have : run stringify parse (evs ++ [ev]) =
        step stringify parse (run stringify parse evs) ev := by
      simp [run, List.foldl_append]
    rw [this]
    exact inv_step stringify parse _ ev ih

theorem listener_unique (ls : List (Nat × String × Client)) (l l' : Nat × String × Client)
    (hn : (ls.map Prod.fst).Nodup) (h : l ∈ ls) (h' : l' ∈ ls) (hk : l.1 = l'.1) : l = l' := by
  induction ls with
  | nil => simp at h
  | cons e rest ih =>
    rw [List.map_cons, List.nodup_cons] at hn
    rcases List.mem_cons.1 h with rfl | hr
    · rcases List.mem_cons.1 h' with rfl | hr'
      · rfl
      · exact absurd (List.mem_map.2 ⟨l', hr', hk.symm⟩) hn.1
    · rcases List.mem_cons.1 h' with rfl | hr'
      · exact absurd (List.mem_map.2 ⟨l, hr, hk⟩) hn.1
      · exact ih hn.2 hr hr'

theorem filter_listener (ls : List (Nat × String × Client)) (l : Nat × String × Client)
    (hn : (ls.map Prod.fst).Nodup) (h : l ∈ ls) :
    ls.filter (fun e => decide (e.1 = l.1)) = [l] := by
  induction ls with
  | nil => simp at h
  | cons e rest ih =>
    have hn' := hn
    rw [List.map_cons, List.nodup_cons] at hn'
    rcases List.mem_cons.1 h with rfl | hr
    · have hnone : rest.filter (fun e => decide (e.1 = l.1)) = [] := by
        rw [List.filter_eq_nil_iff]
        intro e he
        have : ¬ e.1 = l.1 := fun hk => hn'.1 (List.mem_map.2 ⟨e, he, hk⟩)
        simpa using this
      simp [List.filter_cons, hnone]
    · have hne : ¬ e.1 = l.1 := fun hk => hn'.1 (List.mem_map.2 ⟨l, hr, hk.symm⟩)
      simp [List.filter_cons, hne, ih hn'.2 hr]

/-- In every reachable state the members of a room have pairwise different response
objects and are listed once. -/
theorem run_distinctChannels (stringify : Json → String) (parse : String → Option Json)
    (events : List Event) (roomId : String) :
    DistinctChannels (members (run stringify parse events).clientsByRoom roomId) ∧
    (members (run stringify parse events).clientsByRoom roomId).Nodup := by
  obtain ⟨a, b, c, d⟩ := inv_run stringify parse events
  constructor
  · intro x hx y hy hxy
    have h1 := d roomId x hx
    have h2 := d roomId y hy
    have := listener_unique _ _ _ b h1 h2 hxy
    simpa using congrArg (fun l => l.2.2) this
  · unfold members
    cases hm : mapGet (run stringify parse events).clientsByRoom roomId with
    | none => simp
    | some room => simpa using (a.2 roomId room hm).2

theorem length_mapSet_of_get (m : Registry) (k : String) (v w : ClientSet)
    (h : mapGet m k = some w) : (mapSet m k v).length = m.length := by
  induction m with
  | nil => simp [mapGet] at h
  | cons e rest ih =>
    obtain ⟨k1, u⟩ := e
    by_cases h1 : k1 = k
    · simp [mapSet, h1]
    · simp [mapGet, h1] at h
      simp [mapSet, h1, ih h]

theorem length_mapDelete_of_get (m : Registry) (k : String) (w : ClientSet)
    (h : mapGet m k = some w) : (mapDelete m k).length + 1 = m.length := by
  induction m with
  | nil => simp [mapGet] at h
  | cons e rest ih =>
    obtain ⟨k1, u⟩ := e
    by_cases h1 : k1 = k
    · simp [mapDelete, h1]
    · simp [mapGet, h1] at h
      simp [mapDelete, h1, ih h]

theorem mapSize_removeClient_last (m : Registry) (r : String) (c : Client)
    (h : mapGet m r = some [c]) : mapSize (removeClient m r c) + 1 = mapSize m := by
  have hd : setDelete [c] c = [] := by simp [setDelete]
  simp only [removeClient, h, hd, List.length_nil, if_true, mapSize]
  rw [length_mapDelete_of_get _ r [] (by rw [mapGet_mapSet]; simp),
    length_mapSet_of_get m r [] [c] h]

/-- The `close` event of an accepted subscription, in a reachable state. -/
theorem onClose_of_listener (st : Server) (res : Nat) (roomId : String) (client : Client)
    (h : st.Inv) (hl : (res, roomId, client) ∈ st.closeListeners) :
    onClose st res =
      { st with timers := st.timers.filter (fun t => decide (t ≠ res)),
                clientsByRoom := removeClient st.clientsByRoom roomId client } := by
  unfold onClose
  have := filter_listener st.closeListeners (res, roomId, client) h.2.1 hl
  simp only at this
  rw [this]
  rfl

/-! ## Lifecycle properties -/

/-- C10: in any state the server reaches, when the `close` event of an accepted
subscription fires, its listener removes the client registered by that subscription from
the room it joined: afterwards that client is a member of no room, the membership of every
other client in every room is as before, the keep-alive timer of the connection is
cancelled, and if the client was the only member of its room the `rooms` count answered
by `GET /health` is one less than before. -/
theorem close_deregisters (stringify : Json → String) (parse : String → Option Json)
    (events : List Event) (res : Nat) (roomId : String) (client : Client)
    (hacc : (res, roomId, client) ∈ (run stringify parse events).closeListeners) :
    (∀ r, client ∉ members (onClose (run stringify parse events) res).clientsByRoom r) ∧
    (∀ r c, c ≠ client →
      (c ∈ members (onClose (run stringify parse events) res).clientsByRoom r ↔
        c ∈ members (run stringify parse events).clientsByRoom r)) ∧
    res ∉ (onClose (run stringify parse events) res).timers ∧
    (members (run stringify parse events).clientsByRoom roomId = [client] →
      ∃ n : Nat,
        (handleHealth (run stringify parse events)).2 =
          .json 200 (.obj [("ok", .bool true), ("rooms", .num (.ofNat (n + 1)))]) ∧
        (handleHealth (onClose (run stringify parse events) res)).2 =
          .json 200 (.obj [("ok", .bool true), ("rooms", .num (.ofNat n))])) := by
  have hinv := inv_run stringify parse events
  rw [onClose_of_listener _ res roomId client hinv hacc]
  obtain ⟨a, b, c, d⟩ := hinv
  refine ⟨?_, ?_, ?_, ?_⟩
  · intro r hr
    have h1 := (mem_members_removeClient _ roomId r client client a.1).1 hr
    have h2 := d r client h1.1
    have h3 : client.res = res := (c _ hacc).2
    have h4 := listener_unique _ _ _ b h2 hacc h3
    have h5 : r = roomId := by simpa using congrArg (fun l => l.2.1) h4
    exact h1.2 ⟨h5, rfl⟩
  · intro r cl hne
    rw [mem_members_removeClient _ roomId r client cl a.1]
    constructor
    · exact fun h => h.1
    · exact fun h => ⟨h, fun h2 => hne h2.2⟩
  · simp
  · intro hsole
    have hget : mapGet (run stringify parse events).clientsByRoom roomId = some [client] := by
      cases hm : mapGet (run stringify parse events).clientsByRoom roomId with
      | none => simp [members, hm] at hsole
      | some room =>
        have : room = [client] := by simpa [members, hm] using hsole
        rw [this]
    have hsize := mapSize_removeClient_last _ roomId client hget
    refine ⟨mapSize (removeClient (run stringify parse events).clientsByRoom roomId client), ?_, ?_⟩
    · simp only [handleHealth]
      rw [← hsize]
    · simp only [handleHealth]

/-- Witness for C10: `A` subscribes to `r1` on a fresh server and its connection closes;
the `rooms` count goes from one to zero. -/
theorem close_deregisters_witness :
    ∃ n : Nat,
      (handleHealth (run nullText (fun _ => none)
        [.getEvents (some "r1") (some "A") (some "teacher") 1000])).2 =
        .json 200 (.obj [("ok", .bool true), ("rooms", .num (.ofNat (n + 1)))]) ∧
      (handleHealth (onClose (run nullText (fun _ => none)
        [.getEvents (some "r1") (some "A") (some "teacher") 1000]) 0)).2 =
        .json 200 (.obj [("ok", .bool true), ("rooms", .num (.ofNat n))]) :=
  (close_deregisters nullText (fun _ => none)
    [.getEvents (some "r1") (some "A") (some "teacher") 1000] 0 "r1" ⟨"A", "teacher", 0⟩
    (by decide)).2.2.2 (by decide)

end LessonServer
